import Mathlib

/-!
Verification of `po-line-renewal.py`: a shallow embedding of the script's
core functions (`update_po_line`, `get_set_id`, `get_po_line_ids`, and the
`main` orchestration) together with theorems settling the specification
claims about them.

JSON documents are modelled as association lists with string keys; the
external Alma API is modelled as an oracle (`World`) giving the response to
each request the script can make.  Network requests issued by a run are
tracked explicitly as a trace, so that claims about "no network access" or
"exactly one mutation" are statable.
-/

/-- A JSON scalar value as the script manipulates it: the script only ever
writes a string (`renewal_date`) or an integer (`renewal_period`); all other
fetched values are carried through opaquely. -/
inductive JValue where
  | s (v : String)
  | n (v : Int)
deriving DecidableEq

/-- A JSON object (Python dict) as an association list with unique keys by
construction of the operations below. -/
abbrev Doc := List (String × JValue)

/-- Python dict assignment `d[k] = v`: replace the value at the (unique) key
if present, otherwise append the new key at the end. -/
def dictSet : Doc → String → JValue → Doc
  | [], k, v => [(k, v)]
  | kv :: rest, k, v => if kv.1 = k then (k, v) :: rest else kv :: dictSet rest k v

/-- Python truthiness of an optional string CLI value: `None` and the empty
string are falsy. -/
def strTruthy : Option String → Bool
  | none => false
  | some s => !s.isEmpty

/-- The body `update_po_line` writes back (lines 83-86 of the script): the
fetched document with `renewal_date` set to the new date with `Z` appended,
and, when the new period is truthy, `renewal_period` set to it. -/
def updateBody (content : Doc) (new_renewal_date : String) (new_renewal_period : Option Int) : Doc :=
  let c := dictSet content "renewal_date" (JValue.s (new_renewal_date ++ "Z"))
  match new_renewal_period with
  | some p => if p ≠ 0 then dictSet c "renewal_period" (JValue.n p) else c
  | none => c

/-- Response of one `GET /conf/sets` page: either a non-2xx status (which
`raise_for_status` turns into a `RequestException`), or a JSON body that may
or may not contain the `set` listing key, each listed set carrying an `id`
and a `name`. -/
inductive SetsPage where
  | err (status : Nat)
  | page (sets : Option (List (String × String)))
deriving DecidableEq

/-- Fault raised out of `get_set_id`: an HTTP error from a page fetch, or
`SetIDNotFoundError` raised when a page body lacks the `set` key. -/
inductive SFault where
  | http (status : Nat)
  | notFound
deriving DecidableEq

/-- The loop of `get_set_id` (script lines 44-53): `fuel` pages remain,
`off` is the next offset; returns the result together with the list of
offsets actually requested.  Falling off the end of the loop is Python's
implicit `return None`, modelled as `.ok none`. -/
def goSetId (pages : Nat → SetsPage) (set_name : String) : Nat → Nat → Except SFault (Option String) × List Nat
  | 0, _ => (.ok none, [])
  | fuel + 1, off =>
    match pages off with
    | .err s => (.error (.http s), [off])
    | .page none => (.error .notFound, [off])
    | .page (some l) =>
      match l.find? (fun al => al.2 == set_name) with
      | some al => (.ok (some al.1), [off])
      | none =>
        let r := goSetId pages set_name fuel (off + 50)
        (r.1, off :: r.2)

/-- Embedding of `get_set_id` with its request trace: `range(0, 1000*50, 50)` probes
1000 offsets starting at 0 in steps of `OFFSET_LIMIT_WINDOW_SIZE = 50`. -/
def getSetIdT (pages : Nat → SetsPage) (set_name : String) : Except SFault (Option String) × List Nat :=
  goSetId pages set_name 1000 0

/-- The value `get_set_id` produces (its request trace dropped). -/
def getSetId (pages : Nat → SetsPage) (set_name : String) : Except SFault (Option String) :=
  (getSetIdT pages set_name).1

/-- Response of one `GET /conf/sets/.../members` page: either a non-2xx
status, or a JSON body carrying `total_record_count` and possibly the
`member` key with a list of member ids. -/
inductive MembersPage where
  | err (status : Nat)
  | page (total : Int) (member : Option (List String))
deriving DecidableEq

/-- Fault raised out of `get_po_line_ids`: an HTTP error from a page fetch,
or the `AssertionError` from `assert len(po_line_ids) == total_po_lines`. -/
inductive MFault where
  | http (status : Nat)
  | assertionError
deriving DecidableEq

/-- The loop of `get_po_line_ids` (script lines 60-72): accumulates member
ids into a Python set, overwriting `total_po_lines` with each page's
`total_record_count` before testing for the `member` key; a page without
that key breaks the loop.  Returns the accumulated set and last total
together with the offsets requested. -/
def goMembers (pages : Nat → MembersPage) : Nat → Nat → Finset String → Int → Except Nat (Finset String × Int) × List Nat
  | 0, _, acc, total => (.ok (acc, total), [])
  | fuel + 1, off, acc, _total =>
    match pages off with
    | .err s => (.error s, [off])
    | .page t none => (.ok (acc, t), [off])
    | .page t (some ms) =>
      let r := goMembers pages fuel (off + 50) (acc ∪ ms.toFinset) t
      (r.1, off :: r.2)

/-- Embedding of `get_po_line_ids` with its request trace: `range(0, 1000, 50)` probes
the 20 offsets 0, 50, ..., 950; after the loop the script asserts that the
number of distinct ids equals the last reported total. -/
def getPoLineIdsT (pages : Nat → MembersPage) : Except MFault (Finset String) × List Nat :=
  match goMembers pages 20 0 ∅ 0 with
  | (.error s, tr) => (.error (.http s), tr)
  | (.ok (acc, total), tr) =>
    (if (acc.card : Int) = total then .ok acc else .error .assertionError, tr)

/-- The value `get_po_line_ids` produces (its request trace dropped). -/
def getPoLineIds (pages : Nat → MembersPage) : Except MFault (Finset String) :=
  (getPoLineIdsT pages).1

/-- A network request issued by the script, as tracked in run traces.  A
`putPo` request is the only mutating one and carries the body written. -/
inductive Req where
  | preflightSets
  | preflightPoLines
  | listSets (offset : Nat)
  | listMembers (offset : Nat)
  | getPo (id : String)
  | putPo (id : String) (body : Doc)
deriving DecidableEq

/-- Whether a request is the mutating full-replace `PUT` of a PO Line. -/
def isPutReq : Req → Bool
  | .putPo _ _ => true
  | _ => false

/-- Oracle for the external Alma API: the response to every request the
script can make during one run. -/
structure World where
  preflightSetsOk : Bool
  preflightPoLinesOk : Bool
  setsPages : Nat → SetsPage
  membersPages : Nat → MembersPage
  poGet : String → Except Nat Doc
  poPut : String → Doc → Except Nat Unit

/-- Embedding of `update_po_line` (script lines 79-88): fetch the record, abort on a
non-2xx fetch, otherwise build the mutated body and issue the full-replace
`PUT`.  Returns the outcome and the requests issued. -/
def updatePoLine (w : World) (po_line_id : String) (new_renewal_date : String)
    (new_renewal_period : Option Int) : Except Nat Unit × List Req :=
  match w.poGet po_line_id with
  | .error s => (.error s, [.getPo po_line_id])
  | .ok content =>
    let body := updateBody content new_renewal_date new_renewal_period
    match w.poPut po_line_id body with
    | .error s => (.error s, [.getPo po_line_id, .putPo po_line_id body])
    | .ok _ => (.ok (), [.getPo po_line_id, .putPo po_line_id body])

/-- The batch loop of `main` (script lines 167-173): attempt every work
item in order, recording each item's outcome; a `RequestException` from one
item is caught and does not stop the loop. -/
def runBatch (w : World) (new_renewal_date : String) (new_renewal_period : Option Int) :
    List String → List (String × Except Nat Unit) × List Req
  | [] => ([], [])
  | id :: rest =>
    let r := updatePoLine w id new_renewal_date new_renewal_period
    let rs := runBatch w new_renewal_date new_renewal_period rest
    ((id, r.1) :: rs.1, r.2 ++ rs.2)

/-- The identifiers whose update failed, in batch order (the contents of
`failed_po_line_ids`, projected to the ids). -/
def failedIds (outcomes : List (String × Except Nat Unit)) : List String :=
  (outcomes.filter (fun p => !p.2.isOk)).map (fun p => p.1)

/-- The work list of `main` (script lines 161-167): the union of the
set-derived ids and the argument ids as Python sets, then sorted
ascending. -/
def workItems (setDerived : Finset String) (args : List String) : List String :=
  (setDerived ∪ args.toFinset).sort (fun a b => a ≤ b)

/-- The CLI inputs to `main` after click has validated the option types. -/
structure Args where
  set_name : Option String
  set_id : Option String
  po_line_id_args : List String
  new_renewal_date : String
  new_renewal_period : Option Int

/-- What one run of `main` produces: the process exit code, the network
requests issued in order, and the reported failed ids. -/
structure MainResult where
  exitCode : Nat
  reqs : List Req
  failed : List String
deriving DecidableEq

/-- The set-name resolution step of `main` (script lines 138-146): only
taken when a truthy set name was supplied; a `SetIDNotFoundError` or
`RequestException` exits the process.  On the else-branch the set id is
whatever `--set-id` supplied. -/
def resolvePhase (a : Args) (w : World) : Except Unit (Option String) × List Req :=
  if strTruthy a.set_name then
    let r := getSetIdT w.setsPages (a.set_name.getD "")
    match r.1 with
    | .error _ => (.error (), r.2.map Req.listSets)
    | .ok v => (.ok v, r.2.map Req.listSets)
  else (.ok a.set_id, [])

/-- The membership enumeration step of `main` (script lines 149-158): only
taken when the set id is truthy; an enumeration fault exits the process
(a `RequestException` via `sys.exit`, an `AssertionError` by crashing). -/
def enumPhase (setIdVal : Option String) (w : World) : Except Unit (Finset String) × List Req :=
  if strTruthy setIdVal then
    let r := getPoLineIdsT w.membersPages
    match r.1 with
    | .error _ => (.error (), r.2.map Req.listMembers)
    | .ok ids => (.ok ids, r.2.map Req.listMembers)
  else (.ok ∅, [])

/-- Embedding of `main` (script lines 100-180): input validation, the two access
preflights, optional set-name resolution, optional membership enumeration,
the batch loop, and the final failure report.  Every `sys.exit(message)`
and every uncaught exception makes the interpreter exit with code 1; after
the failure report `main` returns normally, which exits with code 0. -/
def mainRun (a : Args) (w : World) : MainResult :=
  if !strTruthy a.set_name && a.po_line_id_args.isEmpty && !strTruthy a.set_id then
    ⟨1, [], []⟩
  else if strTruthy a.set_name && strTruthy a.set_id then
    ⟨1, [], []⟩
  else if !w.preflightSetsOk then
    ⟨1, [.preflightSets], []⟩
  else if !w.preflightPoLinesOk then
    ⟨1, [.preflightSets, .preflightPoLines], []⟩
  else
    let pre := [Req.preflightSets, Req.preflightPoLines]
    match resolvePhase a w with
    | (.error _, tr1) => ⟨1, pre ++ tr1, []⟩
    | (.ok setIdVal, tr1) =>
      match enumPhase setIdVal w with
      | (.error _, tr2) => ⟨1, pre ++ tr1 ++ tr2, []⟩
      | (.ok ids, tr2) =>
        let work := workItems ids a.po_line_id_args
        let b := runBatch w a.new_renewal_date a.new_renewal_period work
        ⟨0, pre ++ tr1 ++ tr2 ++ b.2, failedIds b.1⟩

/-! Concrete inputs used to exercise the theorems below. -/

/-- A fetched PO Line document as in the spec's test vector. -/
def docA : Doc := [("renewal_date", JValue.s "2020-01-01Z"), ("other_field", JValue.s "X")]

/-- A world whose record endpoint serves `docA` and accepts every write. -/
def wOk : World :=
  ⟨true, true, fun _ => .page none, fun _ => .page 0 none, fun _ => .ok docA, fun _ _ => .ok ()⟩

/-- A world whose record endpoint rejects every fetch with status 500. -/
def wFetchFail : World :=
  ⟨true, true, fun _ => .page none, fun _ => .page 0 none, fun _ => .error 500, fun _ _ => .ok ()⟩

/-- CLI inputs: no set name, no set id, one PO Line id argument. -/
def aOneArg : Args := ⟨none, none, ["POL1"], "2024-06-01", none⟩

/-- CLI inputs: only a set id, no set name, no PO Line id arguments. -/
def aSetIdOnly : Args := ⟨none, some "S", [], "2024-06-01", none⟩

/-- CLI inputs: no set name, no set id, no PO Line id arguments. -/
def aNothing : Args := ⟨none, none, [], "2024-06-01", none⟩

/-- A world whose membership endpoint immediately reports an empty,
consistent set (total 0, no `member` key) and accepts everything else. -/
def wEmptySet : World :=
  ⟨true, true, fun _ => .page none, fun _ => .page 0 none, fun _ => .ok docA, fun _ _ => .ok ()⟩

/-- Listing pages that always carry the `set` key but never the wanted
name. -/
def pagesNoMatch : Nat → SetsPage := fun _ => .page (some [("1", "other")])

/-- Listing pages whose first page contains the wanted name in second
position; later offsets would fail, but are never requested. -/
def pagesMatchFirst : Nat → SetsPage := fun off =>
  if off = 0 then .page (some [("ID1", "other"), ("ID2", "target")]) else .err 404

/-- Membership pages that always declare 1001 total records but contribute
no members. -/
def pagesBigTotal : Nat → MembersPage := fun _ => .page 1001 (some [])

/-- Membership pages declaring 5 total records while the `member` key is
absent from the very first page. -/
def pagesShort : Nat → MembersPage := fun _ => .page 5 none

/-! ## Theorems -/

theorem lookup_dictSet_self (d : Doc) (k : String) (v : JValue) :
    (dictSet d k v).lookup k = some v := by
  induction d with
  | nil => simp [dictSet, List.lookup]
  | cons kv rest ih =>
    by_cases h : kv.1 = k
    · simp [dictSet, h, List.lookup]
    · have hb : (k == kv.1) = false := beq_eq_false_iff_ne.mpr (fun h2 => h h2.symm)
      simp [dictSet, h, List.lookup, hb, ih]

theorem lookup_dictSet_ne (d : Doc) (k k' : String) (v : JValue) (hne : k' ≠ k) :
    (dictSet d k v).lookup k' = d.lookup k' := by
  induction d with
  | nil => simp [dictSet, List.lookup, beq_eq_false_iff_ne.mpr hne]
  | cons kv rest ih =>
    by_cases h : kv.1 = k
    · subst h
      have hb : (k' == kv.1) = false := beq_eq_false_iff_ne.mpr hne
      simp [dictSet, List.lookup, hb]
    · rcases kv with ⟨k0, v0⟩
      by_cases h0 : k' = k0
      · subst h0
        simp [dictSet, h, List.lookup]
      · have hb : (k' == k0) = false := beq_eq_false_iff_ne.mpr h0
        simp [dictSet, h, List.lookup, hb, ih]

/-- C1: for every fetched PO Line document, every new renewal date string
and every new renewal period (the CLI guarantees a supplied period lies in
1..365), the body `update_po_line` writes back is the fetched document with
`renewal_date` set to the date followed by the fixed marker `Z`, with
`renewal_period` set to the period exactly when one was requested (left
exactly as fetched when none was), and with every other key of the fetched
document bound to its fetched value. -/
theorem update_po_line_body_spec (w : World) (id nd : String) (np : Option Int) (d : Doc)
    (hfetch : w.poGet id = .ok d)
    (hrange : ∀ p, np = some p → 1 ≤ p ∧ p ≤ 365) :
    (updatePoLine w id nd np).2 = [.getPo id, .putPo id (updateBody d nd np)] ∧
    (updateBody d nd np).lookup "renewal_date" = some (.s (nd ++ "Z")) ∧
    (∀ p, np = some p → (updateBody d nd np).lookup "renewal_period" = some (.n p)) ∧
    (np = none → (updateBody d nd np).lookup "renewal_period" = d.lookup "renewal_period") ∧
    (∀ k, k ≠ "renewal_date" → k ≠ "renewal_period" →
      (updateBody d nd np).lookup k = d.lookup k) := by
  refine ⟨?_, ?_, ?_, ?_, ?_⟩
  · rw [updatePoLine, hfetch]
    rcases hput : w.poPut id (updateBody d nd np) with s | u <;> simp [hput]
  · rcases np with _ | p
    · simp [updateBody, lookup_dictSet_self]
    · have hp : p ≠ 0 := by
        have := (hrange p rfl).1
        omega
      simp only [updateBody, hp, ne_eq, not_false_iff, ite_true]
      rw [lookup_dictSet_ne _ _ _ _ (by decide), lookup_dictSet_self]
  · intro p hp
    subst hp
    have hp0 : p ≠ 0 := by
      have := (hrange p rfl).1
      omega
    simp only [updateBody]
    rw [if_pos hp0, lookup_dictSet_self]
  · intro h
    subst h
    simp only [updateBody]
    rw [lookup_dictSet_ne _ _ _ _ (by decide)]
  · intro k hk1 hk2
    rcases np with _ | p
    · simp only [updateBody]
      rw [lookup_dictSet_ne _ _ _ _ hk1]
    · have hp0 : p ≠ 0 := by
        have := (hrange p rfl).1
        omega
      simp only [updateBody]
      rw [if_pos hp0, lookup_dictSet_ne _ _ _ _ hk2, lookup_dictSet_ne _ _ _ _ hk1]

/-- C1 witness: on the spec's test vector (fetched document with
`renewal_date` and `other_field`, new date 2024-06-01, period 90) the write
body has the new date with `Z`, the period 90, and `other_field`
untouched. -/
theorem update_po_line_body_spec_witness :
    (updateBody docA "2024-06-01" (some 90)).lookup "renewal_date" = some (.s "2024-06-01Z") ∧
    (updateBody docA "2024-06-01" (some 90)).lookup "renewal_period" = some (.n 90) ∧
    (updateBody docA "2024-06-01" (some 90)).lookup "other_field" = some (.s "X") := by
  have h := update_po_line_body_spec wOk "POL1" "2024-06-01" (some 90) docA rfl
    (by intro p hp; cases hp; omega)
  refine ⟨?_, h.2.2.1 90 rfl, ?_⟩
  · have := h.2.1
    simpa using this
  · have := h.2.2.2.2 "other_field" (by decide) (by decide)
    rw [this]
    rfl

/-- C9: for every record identifier, if the initial fetch returns a non-2xx
status then `update_po_line` fails without issuing the write (zero `PUT`
requests); a successful call issues exactly one `PUT`. -/
theorem update_po_line_mutation_count (w : World) (id nd : String) (np : Option Int) :
    ((∃ s, w.poGet id = .error s) →
      (updatePoLine w id nd np).2.countP isPutReq = 0 ∧
      (updatePoLine w id nd np).1 ≠ .ok ()) ∧
    ((updatePoLine w id nd np).1 = .ok () →
      (updatePoLine w id nd np).2.countP isPutReq = 1) := by
  constructor
  · rintro ⟨s, hs⟩
    simp [updatePoLine, hs, List.countP, List.countP.go, isPutReq]
  · intro hok
    rcases hg : w.poGet id with s | content
    · simp only [updatePoLine, hg] at hok
      simp at hok
    · simp only [updatePoLine, hg] at hok ⊢
      rcases hput : w.poPut id (updateBody content nd np) with s | u
      · simp only [hput] at hok
        simp at hok
      · simp only [hput]
        simp [List.countP, List.countP.go, isPutReq]

/-- C9 witness: with a failing fetch the trace holds zero `PUT` requests;
with a succeeding fetch and write it holds exactly one. -/
theorem update_po_line_mutation_count_witness :
    (updatePoLine wFetchFail "POL1" "2024-06-01" none).2.countP isPutReq = 0 ∧
    (updatePoLine wOk "POL1" "2024-06-01" none).2.countP isPutReq = 1 :=
  ⟨((update_po_line_mutation_count wFetchFail "POL1" "2024-06-01" none).1 ⟨500, rfl⟩).1,
   (update_po_line_mutation_count wOk "POL1" "2024-06-01" none).2 rfl⟩

/-- C3: `get_po_line_ids` returns a collection only when the number of
distinct identifiers equals the last server-reported `total_record_count`
of the run; a mismatch raises the assertion fault instead of being
swallowed. -/
theorem get_po_line_ids_consistency (pages : Nat → MembersPage) :
    (∀ s, getPoLineIds pages = .ok s →
      ∃ tr, goMembers pages 20 0 ∅ 0 = (.ok (s, (s.card : Int)), tr)) ∧
    (∀ acc total tr, goMembers pages 20 0 ∅ 0 = (.ok (acc, total), tr) →
      (acc.card : Int) ≠ total → getPoLineIds pages = .error .assertionError) := by
  constructor
  · intro s hs
    rw [getPoLineIds, getPoLineIdsT] at hs
    rcases hgo : goMembers pages 20 0 ∅ 0 with ⟨r, tr⟩
    rw [hgo] at hs
    rcases r with st | ⟨acc, total⟩
    · simp at hs
    · have hs2 : (if (acc.card : Int) = total then (Except.ok acc : Except MFault (Finset String))
          else .error .assertionError) = .ok s := hs
      by_cases hc : (acc.card : Int) = total
      · rw [if_pos hc] at hs2
        have hse : acc = s := by simpa using hs2
        subst hse
        have he : (Except.ok (acc, total), tr) =
            ((Except.ok (acc, (acc.card : Int)) : Except Nat (Finset String × Int)), tr) := by
          rw [hc]
        exact ⟨tr, he⟩
      · rw [if_neg hc] at hs2
        simp at hs2
  · intro acc total tr hgo hne
    rw [getPoLineIds, getPoLineIdsT, hgo]
    simp [hne]

/-- C3 witness: membership pages declaring 5 records while delivering none
make `get_po_line_ids` raise the assertion fault. -/
theorem get_po_line_ids_consistency_witness :
    getPoLineIds pagesShort = .error .assertionError :=
  (get_po_line_ids_consistency pagesShort).2 ∅ 5 [0] rfl (by decide)

/-- C5: for every work list and oracle of per-item outcomes, the batch loop
records an outcome for every work item in order (a failure never stops the
remaining items), and the failure report lists exactly the failing items,
in order, each with its failure detail. -/
theorem run_batch_no_fail_fast (w : World) (nd : String) (np : Option Int) (ids : List String) :
    ((runBatch w nd np ids).1.map (fun p => p.1) = ids) ∧
    ((runBatch w nd np ids).1.filter (fun p => !p.2.isOk) =
      (ids.filter (fun i => !(updatePoLine w i nd np).1.isOk)).map
        (fun i => (i, (updatePoLine w i nd np).1))) ∧
    (failedIds (runBatch w nd np ids).1 =
      ids.filter (fun i => !(updatePoLine w i nd np).1.isOk)) := by
  have key : ∀ l : List String,
      ((runBatch w nd np l).1.map (fun p => p.1) = l) ∧
      ((runBatch w nd np l).1.filter (fun p => !p.2.isOk) =
        (l.filter (fun i => !(updatePoLine w i nd np).1.isOk)).map
          (fun i => (i, (updatePoLine w i nd np).1))) := by
    intro l
    induction l with
    | nil => simp [runBatch]
    | cons id rest ih =>
      rcases ih with ⟨ih1, ih2⟩
      constructor
      · simp [runBatch, ih1]
      · by_cases hfail : (updatePoLine w id nd np).1.isOk = false
        · simp [runBatch, List.filter, hfail, ih2]
        · simp only [Bool.not_eq_false] at hfail
          simp [runBatch, List.filter, hfail, ih2]
  refine ⟨(key ids).1, (key ids).2, ?_⟩
  rw [failedIds, (key ids).2, List.map_map]
  exact List.map_id _

/-- C6: the work list is exactly the deduplicated union of the set-derived
identifiers and the argument identifiers, sorted ascending with each
identifier appearing exactly once; on set-derived ids A, B and argument
ids B, C it is the sequence A, B, C. -/
theorem work_items_sorted_dedup_union :
    (∀ (s : Finset String) (args : List String),
      (workItems s args).Sorted (fun a b => a ≤ b) ∧
      (workItems s args).Nodup ∧
      (∀ x, x ∈ workItems s args ↔ x ∈ s ∨ x ∈ args)) ∧
    workItems {"A", "B"} ["B", "C"] = ["A", "B", "C"] := by
  constructor
  · intro s args
    refine ⟨Finset.sort_sorted _ _, Finset.sort_nodup _ _, fun x => ?_⟩
    rw [workItems, Finset.mem_sort, Finset.mem_union, List.mem_toFinset]
  · have h1 : ({"A", "B"} : Finset String) ∪ (["B", "C"] : List String).toFinset =
        (["A", "B", "C"] : List String).toFinset := by decide
    rw [workItems, h1]
    refine (List.toFinset_sort _ (by decide)).mpr ?_
    simp [List.sorted_cons]
    decide

theorem workItems_empty_nil : workItems ∅ [] = [] := by
  simp [workItems]

theorem workItems_empty_single : workItems ∅ ["POL1"] = ["POL1"] := by
  rw [workItems]
  have h1 : ((∅ : Finset String) ∪ (["POL1"] : List String).toFinset) =
      (["POL1"] : List String).toFinset := Finset.empty_union _
  rw [h1]
  exact (List.toFinset_sort _ (by decide)).mpr (by simp)

theorem mainRun_oneArg_eval : mainRun aOneArg wFetchFail =
    ⟨0, [.preflightSets, .preflightPoLines, .getPo "POL1"], ["POL1"]⟩ := by
  simp [mainRun, aOneArg, wFetchFail, strTruthy, resolvePhase, enumPhase,
    workItems_empty_single, runBatch, updatePoLine, failedIds, Except.isOk, Except.toBool]

/-- C2 counterexample: a run whose single record update fails (fetch
rejected with status 500) still finishes with exit code 0 — the failure is
reported in the failure list but the claimed non-zero exit does not
happen. -/
theorem main_failure_exit_code_cex :
    (mainRun aOneArg wFetchFail).failed = ["POL1"] ∧
    (mainRun aOneArg wFetchFail).exitCode = 0 := by
  rw [mainRun_oneArg_eval]
  exact ⟨rfl, rfl⟩

theorem main_exit_or_no_failures (a : Args) (w : World) :
    (mainRun a w).exitCode = 0 ∨ (mainRun a w).failed = [] := by
  unfold mainRun
  repeat' split
  all_goals simp

/-- C2 amended: in every batch run with at least one record-update failure
the process still exits with code 0 — failed updates are only echoed at the
end; per-item failures never make the exit code non-zero. -/
theorem main_failures_exit_zero (a : Args) (w : World)
    (h : (mainRun a w).failed ≠ []) : (mainRun a w).exitCode = 0 := by
  rcases main_exit_or_no_failures a w with h0 | hf
  · exact h0
  · exact absurd hf h

/-- C2 witness: the amended theorem applied to the failing run above. -/
theorem main_failures_exit_zero_witness : (mainRun aOneArg wFetchFail).exitCode = 0 :=
  main_failures_exit_zero aOneArg wFetchFail (by rw [mainRun_oneArg_eval]; simp)

theorem mainRun_setIdOnly_eval : mainRun aSetIdOnly wEmptySet =
    ⟨0, [.preflightSets, .preflightPoLines, .listMembers 0], []⟩ := by
  have he : getPoLineIdsT (fun _ => MembersPage.page 0 none) = (.ok ∅, [0]) := rfl
  have hS : ("S" : String).isEmpty = false := rfl
  simp [mainRun, aSetIdOnly, strTruthy, resolvePhase, enumPhase, he, hS,
    workItems_empty_nil, runBatch, failedIds, wEmptySet]

/-- C8 counterexample: an invocation giving neither a set name nor any
record identifier, but giving a set id, does not exit with a usage error:
it performs network access (preflights and membership listing) and can
finish with exit code 0. -/
theorem main_set_id_only_proceeds_cex :
    (mainRun aSetIdOnly wEmptySet).reqs ≠ [] ∧
    (mainRun aSetIdOnly wEmptySet).exitCode = 0 := by
  rw [mainRun_setIdOnly_eval]
  exact ⟨by simp, rfl⟩

/-- C8 amended: when neither a set name, nor a set id, nor any directly
supplied record identifier is given, the program exits immediately with a
non-zero exit code and makes no network request at all. -/
theorem main_usage_error_no_network (a : Args) (w : World)
    (h1 : strTruthy a.set_name = false) (h2 : a.po_line_id_args = [])
    (h3 : strTruthy a.set_id = false) :
    (mainRun a w).exitCode ≠ 0 ∧ (mainRun a w).reqs = [] := by
  unfold mainRun
  simp [h1, h2, h3]

/-- C8 witness: the amended theorem applied to an invocation with no set
name, no set id and no identifiers. -/
theorem main_usage_error_no_network_witness :
    (mainRun aNothing wEmptySet).exitCode ≠ 0 ∧ (mainRun aNothing wEmptySet).reqs = [] :=
  main_usage_error_no_network aNothing wEmptySet rfl rfl rfl

theorem goSetId_all_nonmatching (pages : Nat → SetsPage) (set_name : String) :
    ∀ fuel off,
      (∀ k, k < fuel → ∃ l, pages (off + 50 * k) = .page (some l) ∧
        l.find? (fun al => al.2 == set_name) = none) →
      (goSetId pages set_name fuel off).1 = .ok none := by
  intro fuel
  induction fuel with
  | zero => intro off _; simp [goSetId]
  | succ n ih =>
    intro off h
    obtain ⟨l, hp, hf⟩ := h 0 (Nat.succ_pos n)
    rw [Nat.mul_zero, Nat.add_zero] at hp
    simp only [goSetId, hp, hf]
    apply ih
    intro k hk
    obtain ⟨l2, hp2, hf2⟩ := h (k + 1) (by omega)
    refine ⟨l2, ?_, hf2⟩
    have harith : off + 50 * (k + 1) = off + 50 + 50 * k := by ring
    rw [harith] at hp2
    exact hp2

/-- C4 counterexample: when every one of the 1000 probed pages contains the
listing key but no matching name, `get_set_id` does not signal the
not-found fault — it silently returns a null result. -/
theorem get_set_id_exhausted_cex :
    getSetId pagesNoMatch "target" = .ok none ∧
    getSetId pagesNoMatch "target" ≠ .error .notFound := by
  have h : getSetId pagesNoMatch "target" = .ok none := by
    rw [getSetId, getSetIdT]
    apply goSetId_all_nonmatching
    intro k _
    exact ⟨[("1", "other")], rfl, rfl⟩
  exact ⟨h, by rw [h]; simp⟩

/-- C4 amended: when no probed page matches the requested name, the
resolver raises the not-found fault only if some probed page is missing the
listing key; if all 1000 probed pages contain the listing key and none
matches, `get_set_id` instead returns a null result silently (which `main`
then treats as though no set were specified). -/
theorem get_set_id_exhausted_silent_none (pages : Nat → SetsPage) (set_name : String)
    (h : ∀ k, k < 1000 → ∃ l, pages (50 * k) = .page (some l) ∧
      l.find? (fun al => al.2 == set_name) = none) :
    getSetId pages set_name = .ok none := by
  rw [getSetId, getSetIdT]
  apply goSetId_all_nonmatching
  intro k hk
  simpa using h k hk

/-- C4 witness: the amended theorem applied to 1000 pages that all carry a
non-matching listing. -/
theorem get_set_id_exhausted_silent_none_witness :
    getSetId pagesNoMatch "wanted" = .ok none :=
  get_set_id_exhausted_silent_none pagesNoMatch "wanted"
    (fun _ _ => ⟨[("1", "other")], rfl, rfl⟩)

theorem goSetId_first_match (pages : Nat → SetsPage) (set_name : String) :
    ∀ i fuel off, i < fuel →
      (∀ k, k < i → ∃ l, pages (off + 50 * k) = .page (some l) ∧
        l.find? (fun al => al.2 == set_name) = none) →
      ((∀ l al, pages (off + 50 * i) = .page (some l) →
          l.find? (fun al2 => al2.2 == set_name) = some al →
          goSetId pages set_name fuel off =
            (.ok (some al.1), (List.range (i + 1)).map (fun k => off + 50 * k))) ∧
       (pages (off + 50 * i) = .page none →
          goSetId pages set_name fuel off =
            (.error .notFound, (List.range (i + 1)).map (fun k => off + 50 * k)))) := by
  intro i
  induction i with
  | zero =>
    intro fuel off hfuel _
    rcases fuel with _ | n
    · omega
    constructor
    · intro l al hp hf
      rw [Nat.mul_zero, Nat.add_zero] at hp
      simp [goSetId, hp, hf, List.range_succ]
    · intro hp
      rw [Nat.mul_zero, Nat.add_zero] at hp
      simp [goSetId, hp, List.range_succ]
  | succ i ih =>
    intro fuel off hfuel hpre
    rcases fuel with _ | n
    · omega
    obtain ⟨l0, hp0, hf0⟩ := hpre 0 (Nat.succ_pos i)
    rw [Nat.mul_zero, Nat.add_zero] at hp0
    have hshift : ∀ k, k < i → ∃ l, pages (off + 50 + 50 * k) = .page (some l) ∧
        l.find? (fun al => al.2 == set_name) = none := by
      intro k hk
      obtain ⟨l2, hp2, hf2⟩ := hpre (k + 1) (by omega)
      have harith : off + 50 * (k + 1) = off + 50 + 50 * k := by ring
      rw [harith] at hp2
      exact ⟨l2, hp2, hf2⟩
    have ihh := ih n (off + 50) (by omega) hshift
    have harith2 : off + 50 + 50 * i = off + 50 * (i + 1) := by ring
    have htrace : off :: (List.range (i + 1)).map (fun k => off + 50 + 50 * k) =
        (List.range (i + 1 + 1)).map (fun k => off + 50 * k) := by
      conv_rhs => rw [List.range_succ_eq_map, List.map_cons, List.map_map]
      refine congrArg₂ List.cons (by simp) ?_
      refine List.map_congr_left ?_
      intro k _
      simp only [Function.comp]
      omega
    constructor
    · intro l al hp hf
      rw [← harith2] at hp
      have := ihh.1 l al hp hf
      simp only [goSetId, hp0, hf0, this]
      rw [← htrace]
    · intro hp
      rw [← harith2] at hp
      have := ihh.2 hp
      simp only [goSetId, hp0, hf0, this]
      rw [← htrace]

/-- C7: `get_set_id` pages with offsets 0, 50, 100, ... and returns the id
of the first listed set (page order, then within-page order) whose name
equals the requested name exactly, immediately upon encountering it — the
request trace stops at the matching offset, so no further page is fetched;
a page missing the listing key raises the not-found fault at that same
point. -/
theorem get_set_id_first_match (pages : Nat → SetsPage) (set_name : String) (i : Nat)
    (hi : i < 1000)
    (hpre : ∀ k, k < i → ∃ l, pages (50 * k) = .page (some l) ∧
      l.find? (fun al => al.2 == set_name) = none) :
    (∀ l al, pages (50 * i) = .page (some l) →
      l.find? (fun al2 => al2.2 == set_name) = some al →
      getSetIdT pages set_name = (.ok (some al.1), (List.range (i + 1)).map (fun k => 50 * k))) ∧
    (pages (50 * i) = .page none →
      getSetIdT pages set_name = (.error .notFound, (List.range (i + 1)).map (fun k => 50 * k))) := by
  have h := goSetId_first_match pages set_name i 1000 0 hi (by simpa using hpre)
  rw [getSetIdT]
  simpa using h

/-- C7 witness: with the match in second position on the very first page,
the resolver returns that entry's id and the trace shows that only offset 0
was requested. -/
theorem get_set_id_first_match_witness :
    getSetIdT pagesMatchFirst "target" = (.ok (some "ID2"), [0]) := by
  have h := (get_set_id_first_match pagesMatchFirst "target" 0 (by omega)
      (fun k hk => absurd hk (Nat.not_lt_zero k))).1
    [("ID1", "other"), ("ID2", "target")] ("ID2", "target") rfl rfl
  simpa using h

theorem goMembers_succ_eq (pages : Nat → MembersPage) (fuel off : Nat) (acc : Finset String)
    (total : Int) :
    goMembers pages (fuel + 1) off acc total =
      match pages off with
      | .err s => (.error s, [off])
      | .page t none => (.ok (acc, t), [off])
      | .page t (some ms) =>
        ((goMembers pages fuel (off + 50) (acc ∪ ms.toFinset) t).1,
          off :: (goMembers pages fuel (off + 50) (acc ∪ ms.toFinset) t).2) := rfl

theorem goMembers_trace_offsets (pages : Nat → MembersPage) :
    ∀ fuel off acc total o, o ∈ (goMembers pages fuel off acc total).2 →
      ∃ k, k < fuel ∧ o = off + 50 * k := by
  intro fuel
  induction fuel with
  | zero => intro off acc total o ho; simp [goMembers] at ho
  | succ n ih =>
    intro off acc total o ho
    cases hp : pages off with
    | err s =>
      simp [goMembers, hp] at ho
      exact ⟨0, by omega, by omega⟩
    | page t m =>
      cases m with
      | none =>
        simp [goMembers, hp] at ho
        exact ⟨0, by omega, by omega⟩
      | some ms =>
        simp [goMembers, hp] at ho
        rcases ho with rfl | ho2
        · exact ⟨0, by omega, by omega⟩
        · obtain ⟨k, hk, hko⟩ := ih (off + 50) (acc ∪ ms.toFinset) t o ho2
          exact ⟨k + 1, by omega, by omega⟩

theorem goMembers_ok_bound (pages : Nat → MembersPage)
    (hlen : ∀ off t ms, pages off = .page t (some ms) → ms.length ≤ 50)
    (htot : ∀ off t m, pages off = .page t m → 1000 < t) :
    ∀ fuel off acc total acc2 total2 tr, 1000 < total →
      goMembers pages fuel off acc total = (.ok (acc2, total2), tr) →
      acc2.card ≤ acc.card + 50 * fuel ∧ 1000 < total2 := by
  intro fuel
  induction fuel with
  | zero =>
    intro off acc total acc2 total2 tr h0 hgo
    simp only [goMembers, Prod.mk.injEq, Except.ok.injEq] at hgo
    obtain ⟨⟨rfl, rfl⟩, -⟩ := hgo
    exact ⟨by omega, h0⟩
  | succ n ih =>
    intro off acc total acc2 total2 tr h0 hgo
    cases hp : pages off with
    | err s =>
      simp only [goMembers, hp] at hgo
      simp at hgo
    | page t m =>
      have ht : 1000 < t := htot off t m hp
      cases m with
      | none =>
        simp only [goMembers, hp, Prod.mk.injEq, Except.ok.injEq] at hgo
        obtain ⟨⟨rfl, rfl⟩, -⟩ := hgo
        exact ⟨by omega, ht⟩
      | some ms =>
        simp only [goMembers, hp] at hgo
        rcases hgo2 : goMembers pages n (off + 50) (acc ∪ ms.toFinset) t with ⟨r, tr2⟩
        rw [hgo2] at hgo
        simp only [Prod.mk.injEq] at hgo
        obtain ⟨h1, -⟩ := hgo
        subst h1
        have hb := ih (off + 50) (acc ∪ ms.toFinset) t acc2 total2 tr2 ht hgo2
        have hc1 : (acc ∪ ms.toFinset).card ≤ acc.card + ms.toFinset.card :=
          Finset.card_union_le _ _
        have hc2 : ms.toFinset.card ≤ ms.length := ms.toFinset_card_le
        have hc3 : ms.length ≤ 50 := hlen off t ms hp
        have hb1 := hb.1
        exact ⟨by omega, hb.2⟩

/-- C10: the membership enumerator only ever requests offsets 50k with
k < 20 (so at most 20 pages of size 50, at most 1000 member records), and
for every page oracle whose pages carry at most 50 members each while
declaring a total above 1000, `get_po_line_ids` can never return a
result — the final size-equals-total assertion necessarily fails once the
offset bound is exhausted. -/
theorem get_po_line_ids_offset_bound (pages : Nat → MembersPage) :
    (∀ o ∈ (getPoLineIdsT pages).2, ∃ k, k < 20 ∧ o = 50 * k) ∧
    ((∀ off t ms, pages off = .page t (some ms) → ms.length ≤ 50) →
     (∀ off t m, pages off = .page t m → 1000 < t) →
     ∀ s, getPoLineIds pages ≠ .ok s) := by
  constructor
  · intro o ho
    have htr : (getPoLineIdsT pages).2 = (goMembers pages 20 0 ∅ 0).2 := by
      rw [getPoLineIdsT]
      rcases goMembers pages 20 0 ∅ 0 with ⟨r, tr⟩
      rcases r with s | ⟨acc, total⟩ <;> rfl
    rw [htr] at ho
    obtain ⟨k, hk, hko⟩ := goMembers_trace_offsets pages 20 0 ∅ 0 o ho
    exact ⟨k, hk, by omega⟩
  · intro hlen htot s hok
    rw [getPoLineIds, getPoLineIdsT] at hok
    rw [show (20 : Nat) = 19 + 1 from rfl, goMembers_succ_eq] at hok
    cases hp : pages 0 with
    | err st =>
      rw [hp] at hok
      have hok2 : (Except.error (MFault.http st) : Except MFault (Finset String)) = .ok s := hok
      simp at hok2
    | page t m =>
      have ht := htot 0 t m hp
      cases m with
      | none =>
        rw [hp] at hok
        have hok2 : (if ((∅ : Finset String).card : Int) = t then
            (Except.ok (∅ : Finset String) : Except MFault (Finset String))
            else .error .assertionError) = .ok s := hok
        rw [if_neg (by simp; omega)] at hok2
        simp at hok2
      | some ms =>
        simp only [hp] at hok
        rcases hgo : goMembers pages 19 (0 + 50) (∅ ∪ ms.toFinset) t with ⟨r, tr⟩
        rw [hgo] at hok
        rcases r with st | ⟨acc2, total2⟩
        · have hok2 : (Except.error (MFault.http st) : Except MFault (Finset String)) = .ok s := hok
          simp at hok2
        · have hb := goMembers_ok_bound pages hlen htot 19 (0 + 50) (∅ ∪ ms.toFinset) t
            acc2 total2 tr ht hgo
          have hc2 : ms.toFinset.card ≤ ms.length := ms.toFinset_card_le
          have hc3 : ms.length ≤ 50 := hlen 0 t ms hp
          have hcu : (∅ ∪ ms.toFinset : Finset String).card ≤ 50 := by
            rw [Finset.empty_union]
            omega
          have hcard : acc2.card ≤ 1000 := by
            have := hb.1
            omega
          have hne : (acc2.card : Int) ≠ total2 := by
            have h2 := hb.2
            have h3 : (acc2.card : Int) ≤ 1000 := by exact_mod_cast hcard
            omega
          have hok2 : (if ((acc2.card : Int) = total2) then
              (Except.ok acc2 : Except MFault (Finset String))
              else .error .assertionError) = .ok s := hok
          rw [if_neg hne] at hok2
          simp at hok2

/-- C10 witness: membership pages that declare 1001 total records while
carrying at most 50 members each make the enumeration unable to return. -/
theorem get_po_line_ids_offset_bound_witness :
    getPoLineIds pagesBigTotal ≠ .ok ∅ :=
  (get_po_line_ids_offset_bound pagesBigTotal).2
    (fun off t ms h => by
      simp [pagesBigTotal] at h
      rw [h.2]
      decide)
    (fun off t m h => by
      simp [pagesBigTotal] at h
      omega)
    ∅
